import Mathlib

/-!
Shallow embedding of the usage-to-cost aggregation engine of the
auto-stop-firebase extension, together with proofs about its behaviour.

The JavaScript sources are embedded as executable Lean definitions:

* JavaScript numbers are modelled as `JsNum`: either a finite rational or a
  non-finite value (`NaN` / `Infinity` / `-Infinity` are collapsed into one
  constructor, since the code only ever distinguishes them through
  `isFinite`; numeric overflow is not modelled).
* `parseInt(s, 10)` is modelled by `parseIntJs`.
* Fallible JavaScript code (functions that can `throw`) returns
  `Except String _`; the string is the error class.
* The mutable module-level `enterpriseDatabaseIds` set and the mutable
  `perDay` object of `firestore.js` are threaded as explicit state.
* I/O (the monitoring and billing API calls) is factored out: each embedded
  function takes the already-fetched responses / already-read environment
  values as arguments, exactly in the shape the code consumes them.
-/

namespace AutoStop

/-- Model of a JavaScript number: a finite rational, or a non-finite value
(`NaN`, `Infinity` and `-Infinity` collapsed; overflow is not modelled). -/
inductive JsNum where
  | nonfinite : JsNum
  | num : ℚ → JsNum
deriving DecidableEq, Repr

/-- JavaScript addition: non-finite values propagate (`NaN + x = NaN`,
and any sum involving an infinity is non-finite or `NaN`). -/
def JsNum.add : JsNum → JsNum → JsNum
  | .num a, .num b => .num (a + b)
  | _, _ => .nonfinite

instance : Add JsNum := ⟨JsNum.add⟩

/-- JavaScript multiplication with non-finite propagation. -/
def JsNum.mul : JsNum → JsNum → JsNum
  | .num a, .num b => .num (a * b)
  | _, _ => .nonfinite

instance : Mul JsNum := ⟨JsNum.mul⟩

/-- JavaScript subtraction with non-finite propagation. -/
def JsNum.sub : JsNum → JsNum → JsNum
  | .num a, .num b => .num (a - b)
  | _, _ => .nonfinite

instance : Sub JsNum := ⟨JsNum.sub⟩

/-- JavaScript division: division by zero yields a non-finite value
(`Infinity` / `NaN`), and non-finite operands propagate. -/
def JsNum.div : JsNum → JsNum → JsNum
  | .num a, .num b => if b = 0 then .nonfinite else .num (a / b)
  | _, _ => .nonfinite

instance : Div JsNum := ⟨JsNum.div⟩

instance (n : ℕ) : OfNat JsNum n := ⟨.num n⟩

/-- JavaScript `isFinite`. -/
def JsNum.isFinite : JsNum → Bool
  | .num _ => true
  | .nonfinite => false

/-- JavaScript `Math.max` restricted to the use sites of the code: `NaN`
propagates (`Math.max(0, NaN) = NaN`). -/
def jsMax : JsNum → JsNum → JsNum
  | .num a, .num b => .num (max a b)
  | _, _ => .nonfinite

/-- Truthiness of a JavaScript number: `0` and `NaN` are falsy. -/
def jsFalsy : JsNum → Bool
  | .num a => a = 0
  | .nonfinite => true

/-- Numeric value of a list of decimal digit characters. -/
def digitsVal (cs : List Char) : ℕ :=
  cs.foldl (fun a c => a * 10 + (c.toNat - 48)) 0

/-- Model of JavaScript `parseInt(s, 10)`: skip leading whitespace, read an
optional sign and then the longest prefix of decimal digits; `NaN` when that
prefix is empty. -/
def parseIntJs (s : String) : JsNum :=
  let cs := s.toList.dropWhile (fun c => c = ' ' ∨ c = '\t' ∨ c = '\n')
  match cs with
  | '-' :: rest =>
      let ds := rest.takeWhile Char.isDigit
      if ds = [] then .nonfinite else .num (-(digitsVal ds : ℚ))
  | '+' :: rest =>
      let ds := rest.takeWhile Char.isDigit
      if ds = [] then .nonfinite else .num (digitsVal ds)
  | _ =>
      let ds := cs.takeWhile Char.isDigit
      if ds = [] then .nonfinite else .num (digitsVal ds)

/-!
Price resolver, from `getPrice.js` (src/unnamed/part_004).  The function
receives the raw environment string already passed through `parseFloat`
(modelled as a `JsNum`): every validation failure is thrown inside the `try`
block, caught locally, and replaced by the default price, so the function is
total.
-/

/-- Embedding of `getPrice` from `getPrice.js`.  `customPrice` is the result
of `parseFloat` on the configured raw value (absent or unparseable input
parses to `NaN`, i.e. `JsNum.nonfinite`). -/
def getPrice (customPrice : JsNum) (defaultPrice minPrice maxPrice : ℚ) : ℚ :=
  match customPrice with
  | .nonfinite => defaultPrice
  | .num q =>
      if q < 0 then defaultPrice
      else if q < minPrice then defaultPrice
      else if q > maxPrice then defaultPrice
      else q

/-!
Budget fetcher, from `monitoring.js` (`fetchBudget`).  The billing API calls
are factored out; the function receives the configured budget id, the
currency code of the fetched budget, and the `parseFloat` results of its
`units` and `nanos` components.
-/

/-- Embedding of `fetchBudget` from `monitoring.js`: validates the budget id,
the currency, combines `units + nanos / 1e9` and validates the result. -/
def fetchBudget (budgetId : Option String) (currency : Option String)
    (unitsParsed nanosParsed : JsNum) : Except String ℚ :=
  match budgetId with
  | none => .error "The budget ID is not set or invalid."
  | some bid =>
      if bid.length = 0 then .error "The budget ID is not set or invalid."
      else if currency ≠ some "USD" then
        .error "Budget currency is not in USD - only budgets in USD are supported."
      else
        match unitsParsed + nanosParsed / .num 1000000000 with
        | .num q =>
            if q ≤ 0 then .error "Budget amount is not valid."
            else .ok q
        | .nonfinite => .error "Budget amount is not valid."

/-!
Orchestrator, from `monitoring.js` (`monitorUsage`): the five concurrent
fetches are passed in as already-settled results; `Promise.all` fails when
any of them fails, and no disable action runs in that case.
-/

/-- Decidable equality for `Except`, needed to evaluate the embedded
fallible functions on concrete inputs. -/
instance {ε α : Type} [DecidableEq ε] [DecidableEq α] : DecidableEq (Except ε α) := fun a b =>
  match a, b with
  | .ok x, .ok y =>
      decidable_of_iff (x = y) ⟨fun h => by rw [h], fun h => by cases h; rfl⟩
  | .error x, .error y =>
      decidable_of_iff (x = y) ⟨fun h => by rw [h], fun h => by cases h; rfl⟩
  | .ok _, .error _ => isFalse (fun h => by cases h)
  | .error _, .ok _ => isFalse (fun h => by cases h)

/-- Outcome of one orchestrator run: which branch of `monitorUsage` ran. -/
inductive MonitorStatus where
  | monitoringDisabled : MonitorStatus
  | withinBudget : MonitorStatus
  | breachDisabled : MonitorStatus
  | breachTestMode : MonitorStatus
deriving DecidableEq, Repr

/-- Result of one orchestrator run: the outcome and the number of times the
disable action (`executeDisable`) was invoked. -/
structure MonitorRun where
  outcome : Except String MonitorStatus
  disableCalls : ℕ
deriving DecidableEq, Repr

/-- Embedding of `monitorUsage` from `monitoring.js`: gate on the
`MONITORING_ENABLED` flag, join the budget fetch and the four calculators,
compare total cost to the budget, and invoke the disable action on breach
unless in test mode. -/
def monitorUsage (monitoringEnabled : Option String)
    (budget firestoreCost hostingCost storageCost cloudRunCost : Except String ℚ) :
    MonitorRun :=
  if monitoringEnabled ≠ some "true" ∧ monitoringEnabled ≠ some "test" then
    ⟨.ok .monitoringDisabled, 0⟩
  else
    match budget, firestoreCost, hostingCost, storageCost, cloudRunCost with
    | .ok b, .ok f, .ok h, .ok s, .ok c =>
        let totalCost := f + h + s + c
        if totalCost ≤ b then ⟨.ok .withinBudget, 0⟩
        else if monitoringEnabled = some "test" then ⟨.ok .breachTestMode, 0⟩
        else ⟨.ok .breachDisabled, 1⟩
    | .error e, _, _, _, _ => ⟨.error e, 0⟩
    | _, .error e, _, _, _ => ⟨.error e, 0⟩
    | _, _, .error e, _, _ => ⟨.error e, 0⟩
    | _, _, _, .error e, _ => ⟨.error e, 0⟩
    | _, _, _, _, .error e => ⟨.error e, 0⟩

/-!
Firestore cost calculator, from `firestore.js` (src/unnamed/part_004).
One time-series entry per database; each point carries the interval start
(unix seconds) and the raw `int64Value` string.  The timezone conversion
(`getDateByUnixTs`, built on moment-timezone) is passed in as a function
from unix seconds to the day-of-month string.
-/

/-- One `(interval, value)` sample of a time-series entry: the interval
start in unix seconds and the raw `value.int64Value` string. -/
structure FsPoint where
  startSeconds : ℤ
  int64Value : String
deriving DecidableEq, Repr

/-- One time-series entry of the Firestore metrics response: the
`resource.labels.database_id` and the ordered samples.  (Labels used only
for logging are omitted.) -/
structure FsTimeSeries where
  databaseId : String
  points : List FsPoint
deriving DecidableEq, Repr

/-- Model of the mutable `perDay` JavaScript object: the insertion-ordered
key list (what `Object.values` iterates) and the stored values.  Absent keys
map to `0`, which the update path treats identically to JavaScript's
`undefined` (both are falsy, so `!perDay[key]` resets them to `0` before
accumulating). -/
structure PerDay where
  keys : List String
  val : String → JsNum

/-- One iteration of the `db.points.forEach` loop of
`calculatePaidOperations`: skip the literal `"0"` value, otherwise parse and
either add to the running result (non-free-tier database) or accumulate into
the per-day bucket object (free-tier database).  `!perDay[key]` resets a
falsy bucket (absent, `0`, or `NaN`) to `0` before adding. -/
def pointStep (getDate : ℤ → String) (isFreeTierDb : Bool)
    (st : JsNum × PerDay) (p : FsPoint) : JsNum × PerDay :=
  if p.int64Value = "0" then st
  else
    let operations := parseIntJs p.int64Value
    if !isFreeTierDb then (st.1 + operations, st.2)
    else
      let key := getDate p.startSeconds
      let base := if jsFalsy (st.2.val key) then (0 : JsNum) else st.2.val key
      (st.1,
       ⟨if key ∈ st.2.keys then st.2.keys else st.2.keys ++ [key],
        fun k => if k = key then base + operations else st.2.val k⟩)

/-- The full `db.points.forEach` loop: fold `pointStep` over the points from
the initial state (result `0`, empty bucket object). -/
def processPoints (getDate : ℤ → String) (isFreeTierDb : Bool)
    (pts : List FsPoint) : JsNum × PerDay :=
  pts.foldl (pointStep getDate isFreeTierDb) (0, ⟨[], fun _ => 0⟩)

/-- Body of `calculatePaidOperations` after the enterprise-set bookkeeping:
sum the points, and for the free-tier database flush the per-day buckets
through `Math.max(0, dailyUsage - freeQuota)`. -/
def paidResult (getDate : ℤ → String) (freeTierDatabaseId : Option String)
    (db : FsTimeSeries) (freeQuota : ℚ) : JsNum :=
  let isFreeTierDb : Bool := some db.databaseId = freeTierDatabaseId
  let st := processPoints getDate isFreeTierDb db.points
  if isFreeTierDb then
    st.2.keys.foldl (fun r k => r + jsMax 0 (st.2.val k - .num freeQuota)) st.1
  else st.1

/-- Embedding of `calculatePaidOperations` from `firestore.js`: the mutable
module-level `enterpriseDatabaseIds` set is threaded explicitly (a list with
set-insertion).  An enterprise request marks the database; a standard
request returns `0` for databases already marked enterprise. -/
def calculatePaidOperations (getDate : ℤ → String)
    (freeTierDatabaseId : Option String) (enterpriseDatabaseIds : List String)
    (db : FsTimeSeries) (isEnterpriseRequest : Bool) (freeQuota : ℚ) :
    List String × JsNum :=
  if isEnterpriseRequest then
    (if db.databaseId ∈ enterpriseDatabaseIds then enterpriseDatabaseIds
     else enterpriseDatabaseIds ++ [db.databaseId],
     paidResult getDate freeTierDatabaseId db freeQuota)
  else if db.databaseId ∈ enterpriseDatabaseIds then
    (enterpriseDatabaseIds, .num 0)
  else
    (enterpriseDatabaseIds, paidResult getDate freeTierDatabaseId db freeQuota)

/-- One aggregation pass of `getFirestoreCost`: the
`data.forEach(db => total += calculatePaidOperations(db, ...))` loop,
threading the enterprise set and accumulating the pass total. -/
def sumPaidOperations (getDate : ℤ → String)
    (freeTierDatabaseId : Option String) (enterpriseDatabaseIds : List String)
    (data : List FsTimeSeries) (isEnterpriseRequest : Bool) (freeQuota : ℚ) :
    List String × JsNum :=
  data.foldl (fun acc db =>
    let r := calculatePaidOperations getDate freeTierDatabaseId acc.1 db
      isEnterpriseRequest freeQuota
    (r.1, acc.2 + r.2)) (enterpriseDatabaseIds, 0)

/-- Default price constants of `firestore.js` (USD per million operations). -/
def DEFAULT_COST_STANDARD_READ : ℚ := 3/10

/-- Default standard write price (USD per million writes). -/
def DEFAULT_COST_STANDARD_WRITE : ℚ := 9/10

/-- Default standard delete price (USD per million deletes). -/
def DEFAULT_COST_STANDARD_DELETE : ℚ := 1/10

/-- Default enterprise read-unit price (USD per million read units). -/
def DEFAULT_COST_ENTERPRISE_READ_UNIT : ℚ := 5/100

/-- Default enterprise write-unit price (USD per million write units). -/
def DEFAULT_COST_ENTERPRISE_WRITE_UNIT : ℚ := 26/100

/-- Daily free quota for enterprise read units. -/
def FREE_TIER_ENTERPRISE_DAILY_READ_UNITS : ℚ := 50000

/-- Daily free quota for enterprise write units. -/
def FREE_TIER_ENTERPRISE_DAILY_WRITE_UNITS : ℚ := 40000

/-- Daily free quota for standard reads. -/
def FREE_TIER_STANDARD_DAILY_READS : ℚ := 50000

/-- Daily free quota for standard writes. -/
def FREE_TIER_STANDARD_DAILY_WRITES : ℚ := 20000

/-- Daily free quota for standard deletes. -/
def FREE_TIER_STANDARD_DAILY_DELETES : ℚ := 20000

/-- Embedding of `getFirestoreCost` from `firestore.js`: the five metric
responses are passed in already fetched, and the five configured prices as
`parseFloat` results.  The two enterprise passes run before the three
standard passes, sharing the enterprise set; prices are resolved through
`getPrice`; the total is validated by the final `isFinite` check. -/
def getFirestoreCost (getDate : ℤ → String) (freeTierDatabaseId : Option String)
    (entReadsData entWritesData stdReadsData stdWritesData stdDeletesData :
      List FsTimeSeries)
    (entReadPriceRaw entWritePriceRaw stdReadPriceRaw stdWritePriceRaw
      stdDeletePriceRaw : JsNum) : Except String ℚ :=
  let r1 := sumPaidOperations getDate freeTierDatabaseId [] entReadsData true
    FREE_TIER_ENTERPRISE_DAILY_READ_UNITS
  let r2 := sumPaidOperations getDate freeTierDatabaseId r1.1 entWritesData true
    FREE_TIER_ENTERPRISE_DAILY_WRITE_UNITS
  let r3 := sumPaidOperations getDate freeTierDatabaseId r2.1 stdReadsData false
    FREE_TIER_STANDARD_DAILY_READS
  let r4 := sumPaidOperations getDate freeTierDatabaseId r3.1 stdWritesData false
    FREE_TIER_STANDARD_DAILY_WRITES
  let r5 := sumPaidOperations getDate freeTierDatabaseId r4.1 stdDeletesData false
    FREE_TIER_STANDARD_DAILY_DELETES
  let entReadUnitCost := getPrice entReadPriceRaw DEFAULT_COST_ENTERPRISE_READ_UNIT (1/100) 5
  let entWriteUnitCost := getPrice entWritePriceRaw DEFAULT_COST_ENTERPRISE_WRITE_UNIT (1/100) 5
  let stdReadCost := getPrice stdReadPriceRaw DEFAULT_COST_STANDARD_READ (1/100) 5
  let stdWriteCost := getPrice stdWritePriceRaw DEFAULT_COST_STANDARD_WRITE (1/100) 5
  let stdDeleteCost := getPrice stdDeletePriceRaw DEFAULT_COST_STANDARD_DELETE (1/100) 5
  let readStdCostTotal := r3.2 / 1000000 * .num stdReadCost
  let writeStdCostTotal := r4.2 / 1000000 * .num stdWriteCost
  let deleteStdCostTotal := r5.2 / 1000000 * .num stdDeleteCost
  let readEntCostTotal := r1.2 / 1000000 * .num entReadUnitCost
  let writeEntCostTotal := r2.2 / 1000000 * .num entWriteUnitCost
  match readStdCostTotal + writeStdCostTotal + deleteStdCostTotal +
      readEntCostTotal + writeEntCostTotal with
  | .num q => .ok q
  | .nonfinite => .error "Calculated Firestore cost is NaN/Infinite"

/-!
Hosting bandwidth calculator, from `hosting.js`
(src/functions/monitoring/hosting.js).
-/

/-- One entry of the hosting metrics response (the `site_name` label is used
only for logging and is omitted). -/
structure HostingEntry where
  points : List FsPoint
deriving DecidableEq, Repr

/-- Embedding of the inline price-validation block of `getHostingCost`
(hosting.js lines 14-33).  On any validation failure the `catch` block
evaluates a template literal that references the identifier `defaultPrice`,
which is not declared anywhere in `hosting.js` (the module only declares
`DEFAULT_HOSTING_BANDWIDTH_COST`), so the catch block itself throws a
`ReferenceError` that propagates out of `getHostingCost` instead of falling
back to the default price. -/
def hostingResolvePrice (customPrice : JsNum) : Except String ℚ :=
  match customPrice with
  | .nonfinite => .error "ReferenceError: defaultPrice is not defined"
  | .num q =>
      if q < 0 then .error "ReferenceError: defaultPrice is not defined"
      else if q < 1/100 then .error "ReferenceError: defaultPrice is not defined"
      else if q > 5 then .error "ReferenceError: defaultPrice is not defined"
      else .ok q

/-- The `entry.points.forEach` loop of `getHostingCost`: skip literal `"0"`
values, parse the rest, throw on non-finite or negative byte counts,
accumulate otherwise. -/
def hostingEntryBytes (acc : ℚ) : List FsPoint → Except String ℚ
  | [] => .ok acc
  | p :: ps =>
      if p.int64Value = "0" then hostingEntryBytes acc ps
      else
        match parseIntJs p.int64Value with
        | .nonfinite => .error "Invalid byte count - NaN/Infinite"
        | .num n =>
            if n < 0 then .error "Invalid byte count - must be greater than 0"
            else hostingEntryBytes (acc + n) ps

/-- The `hostingResponse.forEach` loop of `getHostingCost`: per-entry byte
sums accumulated into the grand total. -/
def hostingTotalBytes (acc : ℚ) : List HostingEntry → Except String ℚ
  | [] => .ok acc
  | e :: es =>
      match hostingEntryBytes 0 e.points with
      | .error msg => .error msg
      | .ok b => hostingTotalBytes (acc + b) es

/-- Embedding of `getHostingCost` from `hosting.js`: resolve the price (see
`hostingResolvePrice` for the `ReferenceError` on invalid configuration),
sum all byte samples with per-point validation, and convert bytes to GB
times the price.  No free allowance is applied. -/
def getHostingCost (customPrice : JsNum) (hostingResponse : List HostingEntry) :
    Except String ℚ :=
  match hostingResolvePrice customPrice with
  | .error e => .error e
  | .ok price =>
      match hostingTotalBytes 0 hostingResponse with
      | .error e => .error e
      | .ok totalBytes => .ok (totalBytes / (1024 * 1024 * 1024) * price)

/-!
Specification-side views of the data, used to state the theorems: the
parsed rational value of a point, the predicates for valid and invalid
samples, and flat / per-day usage sums.
-/

/-- Rational value of a JavaScript number (`0` for the non-finite value;
only used under hypotheses that exclude that case). -/
def JsNum.toQ : JsNum → ℚ
  | .num a => a
  | .nonfinite => 0

/-- Parsed rational value of a point (`0` for an unparseable value; only
used under hypotheses that exclude that case or make it irrelevant). -/
def fsPointVal (p : FsPoint) : ℚ :=
  match parseIntJs p.int64Value with
  | .num n => n
  | .nonfinite => 0

/-- A data-integrity violation in a sample: a raw value other than the
literal `"0"` that parses to a non-finite (unparseable) or negative
number. -/
def BadPoint (p : FsPoint) : Prop :=
  p.int64Value ≠ "0" ∧
    (parseIntJs p.int64Value = .nonfinite ∨
      ∃ n : ℚ, parseIntJs p.int64Value = .num n ∧ n < 0)

/-- A well-formed sample: unless it is the skipped literal `"0"`, its raw
value parses to a finite non-negative number. -/
def GoodPoint (p : FsPoint) : Prop :=
  p.int64Value ≠ "0" → ∃ n : ℚ, parseIntJs p.int64Value = .num n ∧ 0 ≤ n

/-- Sum of the parsed byte values of one entry's samples. -/
def entryBytesSpec (pts : List FsPoint) : ℚ := (pts.map fsPointVal).sum

/-- Sum of the parsed byte values over all entries of a hosting response. -/
def totalBytesSpec (resp : List HostingEntry) : ℚ :=
  (resp.map (fun e => entryBytesSpec e.points)).sum

/-- The points that the aggregation actually processes: those whose raw
value is not the literal `"0"`. -/
def relevantPoints (pts : List FsPoint) : List FsPoint :=
  pts.filter (fun p => p.int64Value ≠ "0")

/-- Total parsed usage of the processed points that fall on calendar day
`d` (days assigned by the timezone conversion `getDate`). -/
def dayUsage (getDate : ℤ → String) (pts : List FsPoint) (d : String) : ℚ :=
  (((relevantPoints pts).filter (fun p => getDate p.startSeconds = d)).map
    fsPointVal).sum

/-- The set of calendar days on which some processed point falls. -/
def usageDays (getDate : ℤ → String) (pts : List FsPoint) : Finset String :=
  ((relevantPoints pts).map (fun p => getDate p.startSeconds)).toFinset

/-!
Theorems about the embedded program.  The equations below let `simp`
evaluate the JavaScript-number operations on constructor forms.
-/

/-- Addition of finite JavaScript numbers is exact rational addition. -/
@[simp] theorem num_add_num (a b : ℚ) : JsNum.num a + JsNum.num b = .num (a + b) := rfl

/-- Addition propagates a non-finite left operand. -/
@[simp] theorem nonfinite_add (x : JsNum) : JsNum.nonfinite + x = .nonfinite := by
  cases x <;> rfl

/-- Addition propagates a non-finite right operand. -/
@[simp] theorem add_nonfinite (x : JsNum) : x + JsNum.nonfinite = .nonfinite := by
  cases x <;> rfl

/-- Multiplication of finite JavaScript numbers is exact. -/
@[simp] theorem num_mul_num (a b : ℚ) : JsNum.num a * JsNum.num b = .num (a * b) := rfl

/-- Multiplication propagates a non-finite left operand. -/
@[simp] theorem nonfinite_mul (x : JsNum) : JsNum.nonfinite * x = .nonfinite := by
  cases x <;> rfl

/-- Multiplication propagates a non-finite right operand. -/
@[simp] theorem mul_nonfinite (x : JsNum) : x * JsNum.nonfinite = .nonfinite := by
  cases x <;> rfl

/-- Subtraction of finite JavaScript numbers is exact. -/
@[simp] theorem num_sub_num (a b : ℚ) : JsNum.num a - JsNum.num b = .num (a - b) := rfl

/-- Division of finite JavaScript numbers: non-finite on a zero divisor. -/
@[simp] theorem num_div_num (a b : ℚ) :
    JsNum.num a / JsNum.num b = if b = 0 then .nonfinite else .num (a / b) := rfl

/-- The `Math.max` model on finite operands is the rational maximum. -/
@[simp] theorem jsMax_num_num (a b : ℚ) : jsMax (.num a) (.num b) = .num (max a b) := rfl

/-- A finite JavaScript number is falsy exactly when it is zero. -/
@[simp] theorem jsFalsy_num (a : ℚ) : jsFalsy (.num a) = decide (a = 0) := rfl

/-- Numerals of the JavaScript-number model are the finite rationals. -/
@[simp] theorem jsNum_ofNat (n : ℕ) : (OfNat.ofNat n : JsNum) = .num (OfNat.ofNat n) := rfl

/-- Adding a finite zero on the right leaves any JavaScript number fixed. -/
theorem add_num_zero (a : JsNum) : a + .num 0 = a := by
  cases a with
  | nonfinite => rfl
  | num q => simp

/-- Reassociation of two finite additions on the right. -/
theorem add_num_add_num (a : JsNum) (x y : ℚ) :
    a + .num x + .num y = a + .num (x + y) := by
  cases a with
  | nonfinite => rfl
  | num q => simp [add_assoc]

/-- C1: in enabled mode, when the budget fetch and all four cost calculators
succeed, the breach decision is exactly `totalCost > budgetAmount` with
strict inequality: on strict excess the disable action is invoked exactly
once and the run reports success, and on `totalCost ≤ budgetAmount` the
disable action is not invoked and the run reports success within budget. -/
theorem c1_breach_decision_strict (b f h s c : ℚ) :
    (b < f + h + s + c →
      monitorUsage (some "true") (.ok b) (.ok f) (.ok h) (.ok s) (.ok c) =
        ⟨.ok .breachDisabled, 1⟩) ∧
    (f + h + s + c ≤ b →
      monitorUsage (some "true") (.ok b) (.ok f) (.ok h) (.ok s) (.ok c) =
        ⟨.ok .withinBudget, 0⟩) := by
  constructor
  · intro hcmp
    simp [monitorUsage, not_le.mpr hcmp]
  · intro hcmp
    simp [monitorUsage, hcmp]

/-- Witness for C1 at the spec's end-to-end scenarios A ($40 + $65 against
budget $100, breach, one disable call) and B (same costs against $105,
within budget, no disable call). -/
theorem c1_breach_decision_strict_witness :
    monitorUsage (some "true") (.ok 100) (.ok 40) (.ok 65) (.ok 0) (.ok 0) =
      ⟨.ok .breachDisabled, 1⟩ ∧
    monitorUsage (some "true") (.ok 105) (.ok 40) (.ok 65) (.ok 0) (.ok 0) =
      ⟨.ok .withinBudget, 0⟩ :=
  ⟨(c1_breach_decision_strict 100 40 65 0 0).1 (by norm_num),
   (c1_breach_decision_strict 105 40 65 0 0).2 (by norm_num)⟩

/-- C9: in dry-run/test mode, when all fetches succeed and total cost
strictly exceeds the budget, the breach branch is taken (and logged) but the
disable action is never invoked. -/
theorem c9_test_mode_skips_disable (b f h s c : ℚ)
    (hcmp : b < f + h + s + c) :
    monitorUsage (some "test") (.ok b) (.ok f) (.ok h) (.ok s) (.ok c) =
      ⟨.ok .breachTestMode, 0⟩ := by
  simp [monitorUsage, not_le.mpr hcmp]

/-- Witness for C9 at the spec's scenario C (scenario A's numbers in test
mode: breach detected, disable not invoked). -/
theorem c9_test_mode_skips_disable_witness :
    monitorUsage (some "test") (.ok 100) (.ok 40) (.ok 65) (.ok 0) (.ok 0) =
      ⟨.ok .breachTestMode, 0⟩ :=
  c9_test_mode_skips_disable 100 40 65 0 0 (by norm_num)

/-- C8: `fetchBudget` succeeds with value `a` exactly when the budget id is
present and non-empty, the currency is USD, and `units + nanos / 1e9`
combines to the finite, strictly positive amount `a`; in every other case
it fails with an error (it never falls back to a default budget). -/
theorem c8_fetchBudget_characterization (budgetId currency : Option String)
    (units nanos : JsNum) (a : ℚ) :
    fetchBudget budgetId currency units nanos = .ok a ↔
      ((∃ bid, budgetId = some bid ∧ bid.length ≠ 0) ∧
        currency = some "USD" ∧
        units + nanos / .num 1000000000 = .num a ∧ 0 < a) := by
  cases budgetId with
  | none => simp [fetchBudget]
  | some bid =>
      by_cases hlen : bid.length = 0
      · simp [fetchBudget, hlen]
      · by_cases hcur : currency = some "USD"
        · subst hcur
          rcases hsum : units + nanos / JsNum.num 1000000000 with _ | q
          · simp [fetchBudget, hlen, hsum]
          · by_cases hq : q ≤ 0
            · simp only [fetchBudget, if_neg hlen, hsum]
              rw [if_neg (by simp)]
              rw [if_pos hq]
              constructor
              · intro hcon; cases hcon
              · rintro ⟨-, -, heq, hpos⟩
                cases heq
                exact absurd hpos (not_lt.mpr hq)
            · simp only [fetchBudget, if_neg hlen, hsum]
              rw [if_neg (by simp)]
              rw [if_neg hq]
              constructor
              · intro hok
                cases hok
                exact ⟨⟨bid, rfl, hlen⟩, trivial, rfl, not_le.mp hq⟩
              · rintro ⟨-, -, heq, -⟩
                cases heq
                rfl
        · simp [fetchBudget, hlen, hcur]

/-- C7: `getPrice` returns the parsed configured value exactly when it is
finite, non-negative and within the inclusive `[minPrice, maxPrice]` range,
and the default price for every other raw value; consequently, whenever the
default lies in the range, so does the resolved price. -/
theorem c7_getPrice_resolution (raw : JsNum) (d mn mx : ℚ) :
    (getPrice raw d mn mx =
      match raw with
      | .num q => if 0 ≤ q ∧ mn ≤ q ∧ q ≤ mx then q else d
      | .nonfinite => d) ∧
    (mn ≤ d → d ≤ mx →
      mn ≤ getPrice raw d mn mx ∧ getPrice raw d mn mx ≤ mx) := by
  cases raw with
  | nonfinite => exact ⟨rfl, fun h1 h2 => ⟨h1, h2⟩⟩
  | num q =>
      have heq : getPrice (.num q) d mn mx =
          if 0 ≤ q ∧ mn ≤ q ∧ q ≤ mx then q else d := by
        simp only [getPrice]
        by_cases h1 : q < 0
        · rw [if_pos h1, if_neg (by rintro ⟨h0, -, -⟩; exact absurd h1 (not_lt.mpr h0))]
        · rw [if_neg h1]
          by_cases h2 : q < mn
          · rw [if_pos h2, if_neg (by rintro ⟨-, hmn, -⟩; exact absurd h2 (not_lt.mpr hmn))]
          · rw [if_neg h2]
            by_cases h3 : q > mx
            · rw [if_pos h3, if_neg (by rintro ⟨-, -, hmx⟩; exact absurd h3 (not_lt.mpr hmx))]
            · rw [if_neg h3, if_pos ⟨not_lt.mp h1, not_lt.mp h2, not_lt.mp h3⟩]
      refine ⟨heq, fun h1 h2 => ?_⟩
      rw [heq]
      split_ifs with hcond
      · exact ⟨hcond.2.1, hcond.2.2⟩
      · exact ⟨h1, h2⟩

/-- Witness for C7: a valid configured price ($2 within $0.01-$5) is
returned unchanged, and with an absent/unparseable configuration the
resolved price stays inside the bounds. -/
theorem c7_getPrice_resolution_witness :
    getPrice (.num 2) (3/10) (1/100) 5 = 2 ∧
    ((1:ℚ)/100 ≤ getPrice .nonfinite (3/10) (1/100) 5 ∧
      getPrice .nonfinite (3/10) (1/100) 5 ≤ 5) :=
  ⟨by rw [(c7_getPrice_resolution (.num 2) (3/10) (1/100) 5).1]; norm_num,
   (c7_getPrice_resolution .nonfinite (3/10) (1/100) 5).2
     (by norm_num) (by norm_num)⟩

/-- C3 (code bug): with a malformed hosting bandwidth price configuration
(e.g. an unset or non-numeric environment value, whose `parseFloat` is
`NaN`), the `catch` block of `getHostingCost` references the undeclared
identifier `defaultPrice`, so price resolution throws a `ReferenceError`
and the whole hosting calculator fails instead of completing with the
documented default of $0.15 per GB. -/
theorem c3_hosting_price_misconfig_throws :
    hostingResolvePrice .nonfinite =
      .error "ReferenceError: defaultPrice is not defined" ∧
    getHostingCost .nonfinite [⟨[⟨0, "100"⟩]⟩] =
      .error "ReferenceError: defaultPrice is not defined" :=
  ⟨rfl, rfl⟩

/-- C2 (counterexample): the Firestore calculator does no per-point
validation, so a response whose only point has the negative raw value
`"-5"` makes `getFirestoreCost` SUCCEED with a negative cost instead of
failing: the claim that every calculator fails on a negative point value is
false. -/
theorem c2_counterexample_firestore_negative_succeeds :
    getFirestoreCost (fun _ => "1") none [] [] [⟨"(default)", [⟨0, "-5"⟩]⟩]
      [] [] .nonfinite .nonfinite .nonfinite .nonfinite .nonfinite =
      .ok (-3/2000000) := by
  have hp : parseIntJs "-5" = JsNum.num (-5) := by decide
  simp [getFirestoreCost, sumPaidOperations, calculatePaidOperations, paidResult,
    processPoints, pointStep, getPrice, hp,
    DEFAULT_COST_STANDARD_READ, DEFAULT_COST_STANDARD_WRITE,
    DEFAULT_COST_STANDARD_DELETE, DEFAULT_COST_ENTERPRISE_READ_UNIT,
    DEFAULT_COST_ENTERPRISE_WRITE_UNIT, FREE_TIER_ENTERPRISE_DAILY_READ_UNITS,
    FREE_TIER_ENTERPRISE_DAILY_WRITE_UNITS, FREE_TIER_STANDARD_DAILY_READS,
    FREE_TIER_STANDARD_DAILY_WRITES, FREE_TIER_STANDARD_DAILY_DELETES]
  norm_num

/-- With only well-formed samples, the per-entry byte loop of
`getHostingCost` succeeds and adds the entry's parsed byte sum to the
accumulator. -/
theorem hostingEntryBytes_good (pts : List FsPoint) :
    ∀ acc : ℚ, (∀ p ∈ pts, GoodPoint p) →
      hostingEntryBytes acc pts = .ok (acc + entryBytesSpec pts) := by
  induction pts with
  | nil => intro acc _; simp [hostingEntryBytes, entryBytesSpec]
  | cons p ps ih =>
      intro acc hg
      by_cases h0 : p.int64Value = "0"
      · have hval : fsPointVal p = 0 := by
          have : parseIntJs p.int64Value = .num 0 := by rw [h0]; decide
          simp [fsPointVal, this]
        rw [hostingEntryBytes, if_pos h0, ih acc (fun q hq => hg q (by simp [hq]))]
        simp [entryBytesSpec, hval]
      · obtain ⟨n, hn, hn0⟩ := hg p (by simp) h0
        have hval : fsPointVal p = n := by simp [fsPointVal, hn]
        rw [hostingEntryBytes, if_neg h0, hn]
        simp only [if_neg (not_lt.mpr hn0)]
        rw [ih (acc + n) (fun q hq => hg q (by simp [hq]))]
        simp [entryBytesSpec, hval, add_assoc]

/-- A data-integrity violation anywhere in an entry makes the per-entry
byte loop of `getHostingCost` throw. -/
theorem hostingEntryBytes_bad (pts : List FsPoint) :
    ∀ acc : ℚ, (∃ p ∈ pts, BadPoint p) →
      ∃ msg, hostingEntryBytes acc pts = .error msg := by
  induction pts with
  | nil => rintro acc ⟨p, hp, -⟩; cases hp
  | cons p ps ih =>
      rintro acc ⟨q, hq, hbad⟩
      by_cases h0 : p.int64Value = "0"
      · rcases List.mem_cons.mp hq with rfl | hq2
        · exact absurd h0 hbad.1
        · rw [hostingEntryBytes, if_pos h0]
          exact ih acc ⟨q, hq2, hbad⟩
      · rcases hpar : parseIntJs p.int64Value with _ | n
        · simp only [hostingEntryBytes, if_neg h0, hpar]
          exact ⟨_, rfl⟩
        · by_cases hneg : n < 0
          · simp only [hostingEntryBytes, if_neg h0, hpar]
            rw [if_pos hneg]
            exact ⟨_, rfl⟩
          · simp only [hostingEntryBytes, if_neg h0, hpar]
            rw [if_neg hneg]
            rcases List.mem_cons.mp hq with rfl | hq2
            · rcases hbad.2 with hnf | ⟨m, hm, hmneg⟩
              · rw [hpar] at hnf; cases hnf
              · rw [hpar] at hm
                cases hm
                exact absurd hmneg hneg
            · exact ih _ ⟨q, hq2, hbad⟩

/-- With only well-formed samples, the entry loop of `getHostingCost`
succeeds and returns the total parsed byte sum. -/
theorem hostingTotalBytes_good (resp : List HostingEntry) :
    ∀ acc : ℚ, (∀ e ∈ resp, ∀ p ∈ e.points, GoodPoint p) →
      hostingTotalBytes acc resp = .ok (acc + totalBytesSpec resp) := by
  induction resp with
  | nil => intro acc _; simp [hostingTotalBytes, totalBytesSpec]
  | cons e es ih =>
      intro acc hg
      simp only [hostingTotalBytes,
        hostingEntryBytes_good e.points 0 (hg e (by simp))]
      rw [ih (acc + (0 + entryBytesSpec e.points))
        (fun e2 he2 => hg e2 (by simp [he2]))]
      simp [totalBytesSpec, add_assoc]

/-- A data-integrity violation anywhere in the response makes the entry
loop of `getHostingCost` throw. -/
theorem hostingTotalBytes_bad (resp : List HostingEntry) :
    ∀ acc : ℚ, (∃ e ∈ resp, ∃ p ∈ e.points, BadPoint p) →
      ∃ msg, hostingTotalBytes acc resp = .error msg := by
  induction resp with
  | nil => rintro acc ⟨e, he, -⟩; cases he
  | cons e es ih =>
      rintro acc ⟨e2, he2, p, hp, hbad⟩
      rcases List.mem_cons.mp he2 with rfl | he3
      · obtain ⟨msg, hmsg⟩ := hostingEntryBytes_bad e2.points 0 ⟨p, hp, hbad⟩
        simp only [hostingTotalBytes, hmsg]
        exact ⟨msg, rfl⟩
      · rcases hres : hostingEntryBytes 0 e.points with msg | b
        · simp only [hostingTotalBytes, hres]
          exact ⟨msg, rfl⟩
        · simp only [hostingTotalBytes, hres]
          exact ih _ ⟨e2, he3, p, hp, hbad⟩

/-- A successfully resolved hosting price is at least the $0.01 minimum. -/
theorem hostingResolvePrice_lower (raw : JsNum) (p : ℚ)
    (hp : hostingResolvePrice raw = .ok p) : 1/100 ≤ p := by
  cases raw with
  | nonfinite => cases hp
  | num q =>
      by_cases h1 : q < 0
      · rw [hostingResolvePrice, if_pos h1] at hp; cases hp
      · by_cases h2 : q < 1/100
        · rw [hostingResolvePrice, if_neg h1, if_pos h2] at hp; cases hp
        · by_cases h3 : q > 5
          · rw [hostingResolvePrice, if_neg h1, if_neg h2, if_pos h3] at hp
            cases hp
          · rw [hostingResolvePrice, if_neg h1, if_neg h2, if_neg h3] at hp
            cases hp
            exact not_lt.mp h2

/-- C10: the hosting calculator applies no free allowance: with a validly
resolved price `p` and only well-formed samples, the cost is exactly the
total byte sum over all entries divided by `2^30` (bytes per GB) times `p`;
any strictly positive byte total yields a strictly positive cost, and an
empty response yields cost `0`. -/
theorem c10_hosting_no_free_allowance (raw : JsNum) (p : ℚ)
    (resp : List HostingEntry) (hp : hostingResolvePrice raw = .ok p)
    (hg : ∀ e ∈ resp, ∀ pt ∈ e.points, GoodPoint pt) :
    getHostingCost raw resp =
      .ok (totalBytesSpec resp / (1024 * 1024 * 1024) * p) ∧
    (0 < totalBytesSpec resp →
      0 < totalBytesSpec resp / (1024 * 1024 * 1024) * p) ∧
    (resp = [] → getHostingCost raw resp = .ok 0) := by
  have hmain : getHostingCost raw resp =
      .ok (totalBytesSpec resp / (1024 * 1024 * 1024) * p) := by
    rw [getHostingCost, hp, hostingTotalBytes_good resp 0 hg, zero_add]
  refine ⟨hmain, fun hpos => ?_, fun hemp => ?_⟩
  · have hple : (0 : ℚ) < p := lt_of_lt_of_le (by norm_num)
      (hostingResolvePrice_lower raw p hp)
    exact mul_pos (div_pos hpos (by norm_num)) hple
  · subst hemp
    rw [hmain]
    norm_num [totalBytesSpec]

/-- Witness for C10: a configured price of $0.20 with one site serving one
GiB produces exactly $0.20, strictly positive. -/
theorem c10_hosting_no_free_allowance_witness :
    getHostingCost (.num (2/10)) [⟨[⟨0, "1073741824"⟩]⟩] =
      .ok (totalBytesSpec [⟨[⟨0, "1073741824"⟩]⟩] / (1024 * 1024 * 1024) *
        (2/10)) ∧
    0 < totalBytesSpec [⟨[⟨0, "1073741824"⟩]⟩] / (1024 * 1024 * 1024) *
      (2/10 : ℚ) :=
  have h := c10_hosting_no_free_allowance (.num (2/10)) (2/10)
    [⟨[⟨0, "1073741824"⟩]⟩] (by norm_num [hostingResolvePrice])
    (by
      rintro e he pt hpt -
      simp at he
      subst he
      simp at hpt
      subst hpt
      exact ⟨1073741824, by decide, by norm_num⟩)
  ⟨h.1, h.2.1 (by norm_num [totalBytesSpec, entryBytesSpec, fsPointVal,
    show parseIntJs "1073741824" = .num 1073741824 by decide])⟩

/-- C2 (amended): for the hosting calculator, a response containing any
sample that parses to a negative or non-finite value makes the calculator
fail rather than produce a cost; a failed calculator always means the
orchestrator run performs zero disable-action invocations; the Firestore
calculator, by contrast, does not fail on a negative sample: it completes
successfully with the negative value folded into the total. -/
theorem c2_amended_data_integrity_failures :
    (∀ (raw : JsNum) (resp : List HostingEntry),
        (∃ e ∈ resp, ∃ pt ∈ e.points, BadPoint pt) →
        ∃ msg, getHostingCost raw resp = .error msg) ∧
    (∀ me budget fs st cr e,
        (monitorUsage me budget fs (.error e) st cr).disableCalls = 0) ∧
    (∀ me budget ho st cr e,
        (monitorUsage me budget (.error e) ho st cr).disableCalls = 0) ∧
    (getFirestoreCost (fun _ => "1") none [] [] [⟨"db", [⟨0, "-7"⟩]⟩] [] []
        .nonfinite .nonfinite .nonfinite .nonfinite .nonfinite).isOk = true := by
  refine ⟨fun raw resp hbad => ?_, fun me budget fs st cr e => ?_,
    fun me budget ho st cr e => ?_, ?_⟩
  · rw [getHostingCost]
    rcases hpr : hostingResolvePrice raw with msg | price
    · exact ⟨msg, rfl⟩
    · obtain ⟨msg, hmsg⟩ := hostingTotalBytes_bad resp 0 hbad
      rw [hmsg]
      exact ⟨msg, rfl⟩
  · simp only [monitorUsage]
    split
    · rfl
    · split <;> first | rfl | simp_all
  · simp only [monitorUsage]
    split
    · rfl
    · split <;> first | rfl | simp_all
  · have hp : parseIntJs "-7" = JsNum.num (-7) := by decide
    simp [getFirestoreCost, sumPaidOperations, calculatePaidOperations,
      paidResult, processPoints, pointStep, getPrice, hp, Except.isOk, Except.toBool,
      DEFAULT_COST_STANDARD_READ, DEFAULT_COST_STANDARD_WRITE,
      DEFAULT_COST_STANDARD_DELETE, DEFAULT_COST_ENTERPRISE_READ_UNIT,
      DEFAULT_COST_ENTERPRISE_WRITE_UNIT, FREE_TIER_ENTERPRISE_DAILY_READ_UNITS,
      FREE_TIER_ENTERPRISE_DAILY_WRITE_UNITS, FREE_TIER_STANDARD_DAILY_READS,
      FREE_TIER_STANDARD_DAILY_WRITES, FREE_TIER_STANDARD_DAILY_DELETES]

/-- Witness for C2 (amended): a hosting response with the negative sample
`"-7"` fails, and an orchestrator run whose hosting calculator failed makes
zero disable-action invocations. -/
theorem c2_amended_data_integrity_failures_witness :
    (∃ msg, getHostingCost (.num 1) [⟨[⟨0, "-7"⟩]⟩] = .error msg) ∧
    (monitorUsage (some "true") (.ok 100) (.ok 0) (.error "failed") (.ok 0)
      (.ok 0)).disableCalls = 0 :=
  ⟨c2_amended_data_integrity_failures.1 (.num 1) [⟨[⟨0, "-7"⟩]⟩]
    ⟨⟨[⟨0, "-7"⟩]⟩, by simp, ⟨0, "-7"⟩, by simp,
      by decide, .inr ⟨-7, by decide, by norm_num⟩⟩,
   c2_amended_data_integrity_failures.2.1 (some "true") (.ok 100) (.ok 0)
     (.ok 0) (.ok 0) "failed"⟩

/-- A standard-metric (non-enterprise) aggregation call never modifies the
enterprise set. -/
theorem calculatePaidOperations_std_set (g : ℤ → String) (ftid : Option String)
    (s : List String) (db : FsTimeSeries) (q : ℚ) :
    (calculatePaidOperations g ftid s db false q).1 = s := by
  simp only [calculatePaidOperations, Bool.false_eq_true, if_false]
  by_cases hmem : db.databaseId ∈ s
  · rw [if_pos hmem]
  · rw [if_neg hmem]

/-- The standard-pass fold over entries, from any enterprise set and
accumulator, is unchanged by dropping the entries whose database id is in
the set. -/
theorem sumPaid_std_filter (g : ℤ → String) (ftid : Option String)
    (entSet : List String) (q : ℚ) :
    ∀ (dbs : List FsTimeSeries) (acc : JsNum),
      (dbs.foldl (fun a db =>
        let r := calculatePaidOperations g ftid a.1 db false q
        (r.1, a.2 + r.2)) (entSet, acc)).2 =
      ((dbs.filter (fun db => db.databaseId ∉ entSet)).foldl (fun a db =>
        let r := calculatePaidOperations g ftid a.1 db false q
        (r.1, a.2 + r.2)) (entSet, acc)).2 := by
  intro dbs
  induction dbs with
  | nil => intro acc; rfl
  | cons db dbs ih =>
      intro acc
      by_cases hmem : db.databaseId ∈ entSet
      · have hskip : calculatePaidOperations g ftid entSet db false q =
            (entSet, .num 0) := by
          simp [calculatePaidOperations, hmem]
        rw [List.foldl_cons, List.filter_cons, if_neg (by simp [hmem])]
        simp only [hskip, add_num_zero]
        exact ih acc
      · have hset := calculatePaidOperations_std_set g ftid entSet db q
        rw [List.foldl_cons, List.filter_cons, if_pos (by simp [hmem]),
          List.foldl_cons]
        simp only
        rw [hset]
        exact ih _

/-- C5: a database id recorded in the enterprise set makes every
standard-metric aggregation of an entry with that id contribute exactly 0
(and leave the set unchanged), and consequently a standard aggregation pass
over a response equals the pass over only the entries whose id is not in
the set. -/
theorem c5_enterprise_exclusion (g : ℤ → String) (ftid : Option String)
    (entSet : List String) (q : ℚ) (dbs : List FsTimeSeries) :
    (∀ db : FsTimeSeries, db.databaseId ∈ entSet →
      calculatePaidOperations g ftid entSet db false q = (entSet, .num 0)) ∧
    (sumPaidOperations g ftid entSet dbs false q).2 =
      (sumPaidOperations g ftid entSet
        (dbs.filter (fun db => db.databaseId ∉ entSet)) false q).2 := by
  constructor
  · intro db hmem
    simp [calculatePaidOperations, hmem]
  · simp only [sumPaidOperations]
    exact sumPaid_std_filter g ftid entSet q dbs 0

/-- Witness for C5: with `ent1` in the enterprise set, its entry
contributes 0 and the two-entry standard pass equals the pass over the
non-enterprise entry alone. -/
theorem c5_enterprise_exclusion_witness :
    calculatePaidOperations (fun _ => "1") none ["ent1"]
      ⟨"ent1", [⟨0, "100"⟩]⟩ false 0 = (["ent1"], .num 0) ∧
    (sumPaidOperations (fun _ => "1") none ["ent1"]
      [⟨"ent1", [⟨0, "100"⟩]⟩, ⟨"db", [⟨0, "200"⟩]⟩] false 0).2 =
    (sumPaidOperations (fun _ => "1") none ["ent1"]
      ([⟨"ent1", [⟨0, "100"⟩]⟩, ⟨"db", [⟨0, "200"⟩]⟩].filter
        (fun db => db.databaseId ∉ ["ent1"])) false 0).2 :=
  ⟨(c5_enterprise_exclusion (fun _ => "1") none ["ent1"] 0 []).1
      ⟨"ent1", [⟨0, "100"⟩]⟩ (by simp),
   (c5_enterprise_exclusion (fun _ => "1") none ["ent1"] 0
      [⟨"ent1", [⟨0, "100"⟩]⟩, ⟨"db", [⟨0, "200"⟩]⟩]).2⟩

/-- Folding the points loop ignores the points whose raw value is the
literal `"0"`: the fold over a list equals the fold over its processed
(non-zero) points. -/
theorem processPoints_skip_zero (g : ℤ → String) (ft : Bool) :
    ∀ (pts : List FsPoint) (st : JsNum × PerDay),
      pts.foldl (pointStep g ft) st =
        (relevantPoints pts).foldl (pointStep g ft) st := by
  intro pts
  induction pts with
  | nil => intro st; rfl
  | cons p ps ih =>
      intro st
      by_cases h0 : p.int64Value = "0"
      · have hstep : pointStep g ft st p = st := by simp [pointStep, h0]
        rw [List.foldl_cons, hstep, ih]
        simp [relevantPoints, h0]
      · rw [List.foldl_cons]
        have hrel : relevantPoints (p :: ps) = p :: relevantPoints ps := by
          simp [relevantPoints, h0]
        rw [hrel, List.foldl_cons, ih]

/-- C6: inserting any number of literal-zero points at any positions leaves
the whole points-loop state (running result and every per-day bucket) and
the aggregated total of `calculatePaidOperations` unchanged: two entries
with the same database id that agree on their non-zero points aggregate
identically. -/
theorem c6_zero_points_are_noops (g : ℤ → String) (ftid : Option String)
    (entSet : List String) (isEnt ft : Bool) (q : ℚ)
    (db1 db2 : FsTimeSeries) (hid : db1.databaseId = db2.databaseId)
    (hpts : relevantPoints db1.points = relevantPoints db2.points) :
    processPoints g ft db1.points = processPoints g ft db2.points ∧
    calculatePaidOperations g ftid entSet db1 isEnt q =
      calculatePaidOperations g ftid entSet db2 isEnt q := by
  obtain ⟨id1, pts1⟩ := db1
  obtain ⟨id2, pts2⟩ := db2
  simp only at hid hpts
  subst hid
  have hpp : ∀ ftb : Bool, processPoints g ftb pts1 = processPoints g ftb pts2 := by
    intro ftb
    rw [processPoints, processPoints, processPoints_skip_zero g ftb pts1,
      processPoints_skip_zero g ftb pts2, hpts]
  have hpaid : paidResult g ftid ⟨id1, pts1⟩ q = paidResult g ftid ⟨id1, pts2⟩ q := by
    simp only [paidResult]
    rw [hpp]
  refine ⟨hpp ft, ?_⟩
  simp only [calculatePaidOperations, hpaid]

/-- Witness for C6: interleaving two literal-zero points around a single
non-zero point changes neither the points-loop state nor the aggregate. -/
theorem c6_zero_points_are_noops_witness :
    processPoints (fun _ => "1") true [⟨0, "100"⟩] =
      processPoints (fun _ => "1") true [⟨0, "0"⟩, ⟨0, "100"⟩, ⟨5, "0"⟩] ∧
    calculatePaidOperations (fun _ => "1") (some "d") [] ⟨"d", [⟨0, "100"⟩]⟩
        false 50 =
      calculatePaidOperations (fun _ => "1") (some "d") []
        ⟨"d", [⟨0, "0"⟩, ⟨0, "100"⟩, ⟨5, "0"⟩]⟩ false 50 :=
  c6_zero_points_are_noops (fun _ => "1") (some "d") [] false true 50
    ⟨"d", [⟨0, "100"⟩]⟩ ⟨"d", [⟨0, "0"⟩, ⟨0, "100"⟩, ⟨5, "0"⟩]⟩ rfl (by decide)

/-- Invariant of the free-tier points loop: folding `pointStep` in
free-tier mode leaves the running result untouched, adds each day's parsed
usage to that day's bucket, keeps the key list duplicate-free, and ends
with exactly the initial keys plus the days of the processed points. -/
theorem processPoints_free_tier (g : ℤ → String) :
    ∀ (pts : List FsPoint) (r : JsNum) (pd : PerDay),
      (∀ p ∈ pts, p.int64Value ≠ "0" → parseIntJs p.int64Value ≠ .nonfinite) →
      (∀ k, pd.val k ≠ .nonfinite) →
      ((pts.foldl (pointStep g true) (r, pd)).1 = r ∧
       (∀ k, (pts.foldl (pointStep g true) (r, pd)).2.val k =
          pd.val k + .num (dayUsage g pts k)) ∧
       (pd.keys.Nodup → (pts.foldl (pointStep g true) (r, pd)).2.keys.Nodup) ∧
       (pts.foldl (pointStep g true) (r, pd)).2.keys.toFinset =
          pd.keys.toFinset ∪ usageDays g pts) := by
  intro pts
  induction pts with
  | nil =>
      intro r pd hfin hval
      refine ⟨rfl, fun k => ?_, fun h => h, ?_⟩
      · simp [dayUsage, relevantPoints, add_num_zero]
      · simp [usageDays, relevantPoints]
  | cons p ps ih =>
      intro r pd hfin hval
      by_cases h0 : p.int64Value = "0"
      · have hstep : pointStep g true (r, pd) p = (r, pd) := by
          simp [pointStep, h0]
        rw [List.foldl_cons, hstep]
        have hrel : relevantPoints (p :: ps) = relevantPoints ps := by
          simp [relevantPoints, h0]
        obtain ⟨h1, h2, h3, h4⟩ := ih r pd (fun p2 hp2 => hfin p2 (by simp [hp2])) hval
        refine ⟨h1, fun k => ?_, h3, ?_⟩
        · rw [h2 k]
          simp [dayUsage, hrel]
        · rw [h4]
          simp [usageDays, hrel]
      · obtain ⟨n, hn⟩ : ∃ n, parseIntJs p.int64Value = .num n := by
          rcases hh : parseIntJs p.int64Value with _ | n
          · exact absurd hh (hfin p (by simp) h0)
          · exact ⟨n, rfl⟩
        obtain ⟨s, hs⟩ : ∃ s, pd.val (g p.startSeconds) = .num s := by
          rcases hh : pd.val (g p.startSeconds) with _ | s
          · exact absurd hh (hval (g p.startSeconds))
          · exact ⟨s, rfl⟩
        have hbase : (if jsFalsy (pd.val (g p.startSeconds)) then (0 : JsNum)
            else pd.val (g p.startSeconds)) + .num n =
            pd.val (g p.startSeconds) + .num n := by
          rw [hs]
          by_cases s0 : s = 0 <;> simp [jsFalsy, s0]
        have hstep : pointStep g true (r, pd) p =
            (r, ⟨if g p.startSeconds ∈ pd.keys then pd.keys
                  else pd.keys ++ [g p.startSeconds],
                 fun k => if k = g p.startSeconds then
                    pd.val (g p.startSeconds) + .num n else pd.val k⟩) := by
          simp only [pointStep, if_neg h0, hn, Bool.not_true, Bool.false_eq_true,
            if_false]
          refine congrArg _ ?_
          refine congrArg _ ?_
          funext k
          by_cases hk : k = g p.startSeconds
          · rw [if_pos hk, if_pos hk, hbase]
          · rw [if_neg hk, if_neg hk]
        have hrel : relevantPoints (p :: ps) = p :: relevantPoints ps := by
          simp [relevantPoints, h0]
        have hdu : ∀ k, dayUsage g (p :: ps) k =
            (if g p.startSeconds = k then n else 0) + dayUsage g ps k := by
          intro k
          by_cases hk : g p.startSeconds = k <;>
            simp [dayUsage, hrel, List.filter_cons, hk, fsPointVal, hn]
        set pd2 : PerDay :=
          ⟨if g p.startSeconds ∈ pd.keys then pd.keys
            else pd.keys ++ [g p.startSeconds],
           fun k => if k = g p.startSeconds then
              pd.val (g p.startSeconds) + .num n else pd.val k⟩ with hpd2
        have hval2 : ∀ k, pd2.val k ≠ .nonfinite := by
          intro k
          rw [hpd2]
          by_cases hk : k = g p.startSeconds
          · simp only [hk, if_pos rfl, hs, num_add_num]
            intro hcon
            cases hcon
          · simp only [if_neg hk]
            exact hval k
        obtain ⟨h1, h2, h3, h4⟩ := ih r pd2 (fun p2 hp2 => hfin p2 (by simp [hp2])) hval2
        rw [List.foldl_cons, hstep]
        refine ⟨h1, fun k => ?_, fun hnd => ?_, ?_⟩
        · rw [h2 k, hdu k]
          by_cases hk : k = g p.startSeconds
          · subst hk
            rw [hpd2]
            simp [add_num_add_num]
          · rw [hpd2]
            simp only [if_neg hk]
            rw [if_neg (fun hcon => hk hcon.symm)]
            rw [zero_add]
        · apply h3
          rw [hpd2]
          by_cases hkmem : g p.startSeconds ∈ pd.keys
          · simpa [hkmem] using hnd
          · simp only [if_neg hkmem]
            simp [List.nodup_append, hnd, hkmem]
        · rw [h4]
          have hud : usageDays g (p :: ps) =
              insert (g p.startSeconds) (usageDays g ps) := by
            simp [usageDays, hrel]
          rw [hud, hpd2]
          by_cases hkmem : g p.startSeconds ∈ pd.keys
          · simp only [if_pos hkmem]
            ext x
            simp only [Finset.mem_union, List.mem_toFinset, Finset.mem_insert]
            constructor
            · rintro (hx | hx)
              · exact .inl hx
              · exact .inr (.inr hx)
            · rintro (hx | hx | hx)
              · exact .inl hx
              · exact .inl (hx ▸ hkmem)
              · exact .inr hx
          · simp only [if_neg hkmem]
            ext x
            simp only [Finset.mem_union, List.mem_toFinset, Finset.mem_insert,
              List.mem_append, List.mem_singleton]
            tauto

/-- Flushing the per-day buckets: folding
`result += Math.max(0, dailyUsage - freeQuota)` over finite buckets is the
rational sum of the per-day paid remainders. -/
theorem flush_sum (q : ℚ) (val : String → JsNum) :
    ∀ (ks : List String) (r0 : ℚ),
      (∀ k ∈ ks, val k ≠ .nonfinite) →
      ks.foldl (fun r k => r + jsMax (.num 0) (val k - .num q)) (.num r0) =
        .num (r0 + (ks.map (fun k => max 0 ((val k).toQ - q))).sum) := by
  intro ks
  induction ks with
  | nil => intro r0 _; simp
  | cons k ks ih =>
      intro r0 h
      obtain ⟨s, hs⟩ : ∃ s, val k = .num s := by
        rcases hh : val k with _ | s
        · exact absurd hh (h k (by simp))
        · exact ⟨s, rfl⟩
      rw [List.foldl_cons]
      have hone : (JsNum.num r0) + jsMax (.num 0) (val k - .num q) =
          .num (r0 + max 0 (s - q)) := by
        rw [hs]
        simp
      rw [hone, ih _ (fun k2 hk2 => h k2 (by simp [hk2]))]
      simp [hs, JsNum.toQ, add_assoc]

/-- C4: for a free-tier database entry (id equal to the configured
free-tier id, not enterprise-marked) whose samples all parse, the aggregate
equals the sum over calendar days of `max(0, usage(day) - freeQuota)`,
days taken from each point's interval start through the timezone
conversion. -/
theorem c4_free_tier_daily_quota (g : ℤ → String) (ftid : String)
    (entSet : List String) (db : FsTimeSeries) (q : ℚ)
    (hfree : db.databaseId = ftid) (hmem : db.databaseId ∉ entSet)
    (hfin : ∀ p ∈ db.points, p.int64Value ≠ "0" →
      parseIntJs p.int64Value ≠ .nonfinite) :
    (calculatePaidOperations g (some ftid) entSet db false q).2 =
      .num (∑ d in usageDays g db.points,
        max 0 (dayUsage g db.points d - q)) := by
  obtain ⟨h1, h2, h3, h4⟩ := processPoints_free_tier g db.points 0
    ⟨[], fun _ => 0⟩ hfin (by intro k; simp)
  have hnd := h3 List.nodup_nil
  have hft : (some db.databaseId = some ftid) = True := by simp [hfree]
  simp only [calculatePaidOperations, Bool.false_eq_true, if_false,
    if_neg hmem, paidResult, hft, decide_True, if_true, processPoints]
  simp only [jsNum_ofNat, num_add_num, zero_add] at h1 h2 h4 hnd ⊢
  have hvals : ∀ k ∈ (db.points.foldl (pointStep g true)
      (JsNum.num 0, ⟨[], fun _ => JsNum.num 0⟩)).2.keys,
      (db.points.foldl (pointStep g true)
        (JsNum.num 0, ⟨[], fun _ => JsNum.num 0⟩)).2.val k ≠ .nonfinite := by
    intro k _
    rw [h2 k]
    intro hcon
    cases hcon
  rw [h1]
  rw [flush_sum q
    ((db.points.foldl (pointStep g true)
      (JsNum.num 0, ⟨[], fun _ => JsNum.num 0⟩)).2.val)
    ((db.points.foldl (pointStep g true)
      (JsNum.num 0, ⟨[], fun _ => JsNum.num 0⟩)).2.keys) 0 hvals]
  rw [zero_add]
  congr 1
  rw [List.map_congr_left (fun k _ => by
    rw [h2 k]; simp [JsNum.toQ] : ∀ k ∈ (db.points.foldl (pointStep g true)
        (JsNum.num 0, ⟨[], fun _ => JsNum.num 0⟩)).2.keys,
      max 0 (((db.points.foldl (pointStep g true)
        (JsNum.num 0, ⟨[], fun _ => JsNum.num 0⟩)).2.val k).toQ - q) =
      max 0 (dayUsage g db.points k - q))]
  rw [← List.sum_toFinset _ hnd, h4]
  simp

/-- Witness for C4: the spec's free-tier example, daily usage 5000 then
60000 on consecutive days against a daily quota of 50000, yields a paid
total of exactly 10000. -/
theorem c4_free_tier_daily_quota_witness :
    (calculatePaidOperations (fun ts => if ts < 86400 then "1" else "2")
      (some "(default)") [] ⟨"(default)", [⟨0, "5000"⟩, ⟨86400, "60000"⟩]⟩
      false 50000).2 =
      .num (∑ d in usageDays (fun ts => if ts < 86400 then "1" else "2")
          [⟨0, "5000"⟩, ⟨86400, "60000"⟩],
        max 0 (dayUsage (fun ts => if ts < 86400 then "1" else "2")
          [⟨0, "5000"⟩, ⟨86400, "60000"⟩] d - 50000)) ∧
    (calculatePaidOperations (fun ts => if ts < 86400 then "1" else "2")
      (some "(default)") [] ⟨"(default)", [⟨0, "5000"⟩, ⟨86400, "60000"⟩]⟩
      false 50000).2 = .num 10000 := by
  have happ := c4_free_tier_daily_quota
    (fun ts => if ts < 86400 then "1" else "2") "(default)" []
    ⟨"(default)", [⟨0, "5000"⟩, ⟨86400, "60000"⟩]⟩ 50000 rfl (by simp)
    (by
      intro p hp h0
      simp only [List.mem_cons, List.not_mem_nil, or_false] at hp
      rcases hp with rfl | rfl <;> decide)
  refine ⟨happ, ?_⟩
  have hp1 : parseIntJs "5000" = JsNum.num 5000 := by decide
  have hp2 : parseIntJs "60000" = JsNum.num 60000 := by decide
  simp [calculatePaidOperations, paidResult, processPoints, pointStep,
    hp1, hp2, jsFalsy]
  norm_num [max_def]

end AutoStop
